import Mathlib

/-!
Verification development for the claude-web backend (TypeScript sources under
`src/backend/src`).  The definitions below are shallow embeddings of the
corresponding TypeScript functions; each definition's doc comment names the
source file and symbol it embeds.  Strings that the code manipulates
character-by-character (file contents, paths) are modelled as `List Char`;
plain identifiers and messages are Lean `String`s.
-/

namespace ClaudeWeb

/-! ## Character-list string utilities

JavaScript string primitives used by the sources (`includes`, `split`-based
occurrence counting, `replace` of the first match, `startsWith`, `endsWith`,
`toLowerCase`) modelled over `List Char`. -/

abbrev Str := List Char

/-- JS `s.includes(sub)`: some suffix of `s` has `sub` as a prefix. -/
def strContains (s sub : Str) : Bool :=
  s.tails.any (fun t => sub.isPrefixOf t)

/-- JS `s.startsWith(pre)`. -/
def strStartsWith (s pre : Str) : Bool :=
  pre.isPrefixOf s

/-- JS `s.endsWith(suf)`. -/
def strEndsWith (s suf : Str) : Bool :=
  suf.isSuffixOf s

/-- JS `s.toLowerCase()` (ASCII-level model). -/
def toLowerStr (s : Str) : Str :=
  s.map Char.toLower

/-- Scanner for the non-overlapping left-to-right match count: on a match,
skip past it (the matched tail after the first character is `sub.length - 1`
long).  The fuel argument bounds the scan; one unit per character suffices. -/
def countOccFuel (sub : Str) : Nat → Str → Nat
  | 0, _ => 0
  | _, [] => 0
  | fuel + 1, c :: rest =>
      if sub.isPrefixOf (c :: rest) then
        1 + countOccFuel sub fuel (rest.drop (sub.length - 1))
      else
        countOccFuel sub fuel rest

/-- Number of non-overlapping left-to-right matches of a non-empty `sub`
in `s`; this is exactly `s.split(sub).length - 1` in JavaScript. -/
def countOccAux (sub s : Str) : Nat :=
  countOccFuel sub s.length s

/-- JS `content.split(old_string).length - 1` — the occurrence count used by
`editFile` (src/backend/src/tools/file-tools.ts:134).  For an empty separator
JS splits into single characters, giving `s.length - 1`. -/
def countOccurrences (s sub : Str) : Nat :=
  if sub.isEmpty then s.length - 1 else countOccAux sub s

/-- JS `content.replace(old, new)` for string patterns: replace the first
(leftmost) match only.  An empty pattern matches at position 0. -/
def replaceFirst (sub repl : Str) : Str → Str
  | [] => if sub.isEmpty then repl else []
  | c :: rest =>
      if sub.isPrefixOf (c :: rest) then
        repl ++ (c :: rest).drop sub.length
      else
        c :: replaceFirst sub repl rest

/-! ## Session data model (src/backend/src/types.ts) -/

/-- `SessionStatus` (src/backend/src/types.ts). -/
inductive SessionStatus
  | initializing
  | active
  | thinking
  | executing
  | waiting
  | paused
  | ended
deriving DecidableEq, Repr

/-- Dynamic tool input object (`Record<string, unknown>`), restricted to the
fields the built-in tools read.  A missing field is `none` (JS `undefined`). -/
structure RawInput where
  path : Option Str := none
  content : Option Str := none
  old_string : Option Str := none
  new_string : Option Str := none
  pattern : Option String := none
  command : Option String := none
  task : Option String := none
deriving DecidableEq, Repr

/-- Structured content block of an assistant response / history message
(text, tool-use, tool-result). -/
inductive ContentBlock
  | text (s : String)
  | tool_use (id name : String) (input : RawInput)
  | tool_result (tool_use_id : String) (content : String)
deriving DecidableEq, Repr

/-- `MessageBlock.content`: plain text or a structured block sequence. -/
inductive MsgContent
  | str (s : String)
  | blocks (bs : List ContentBlock)
deriving DecidableEq, Repr

/-- `MessageBlock` (src/backend/src/types.ts). -/
structure MessageBlock where
  role : Bool        -- true = assistant, false = user
  content : MsgContent
  timestamp : Nat
deriving DecidableEq, Repr

/-- `SessionState` (src/backend/src/types.ts); the transient
`workerContext`/`cliSessionId` fields are not read by the replayed code and
are omitted. -/
structure SessionState where
  sessionId : String
  workDir : String
  status : SessionStatus
  createdAt : Nat
  lastActivity : Nat
  roundCount : Nat
  model : String
  instructorHistory : List MessageBlock
deriving DecidableEq, Repr

/-- `ToolResult` (src/backend/src/types.ts).  `is_error` is optional in the
TypeScript type; `none` models the field being absent. -/
structure ToolResult where
  tool_use_id : String
  content : String
  is_error : Option Bool := none
deriving DecidableEq, Repr

/-! ## Persisted events (src/backend/src/session/types.ts) -/

/-- `SessionEventType`: the discriminated union of persisted JSONL records.
`session_created.model` is `Option String` because older persisted lines may
lack the field (the replay code defends with `event.model || config.claudeModel`). -/
inductive SessionEvent
  | session_created (timestamp : Nat) (sessionId workDir : String) (model : Option String)
  | user_message (timestamp : Nat) (content : String)
  | instructor_message (timestamp : Nat) (content : MsgContent)
  | instructor_thinking (timestamp : Nat) (content : String)
  | tool_result (timestamp : Nat) (toolId : String) (content : String)
  | tool_results (timestamp : Nat) (results : List ToolResult)
  | round_complete (timestamp : Nat) (round : Nat)
  | status_change (timestamp : Nat) (status : SessionStatus)
  | session_ended (timestamp : Nat) (reason : String)
  | cli_session_linked (timestamp : Nat) (cliSessionId : String)
deriving DecidableEq, Repr

/-- Whether an event is a `session_created` record. -/
def SessionEvent.isCreated : SessionEvent → Bool
  | .session_created _ _ _ _ => true
  | _ => false

/-- One step of the `reconstructSession` switch
(src/backend/src/session/storage.ts:239-303, symbol `reconstructSession` of
`SessionManager`).  `cfgModel` is `config.claudeModel`.  Event types not
named in the switch (`instructor_thinking`, `tool_result`, `tool_results`,
`cli_session_linked`) fall through and leave the state unchanged; every
per-event mutation is guarded by `if (session)`, so events arriving before a
`session_created` are skipped. -/
def applyEvent (cfgModel : String) (sessionId : String) :
    Option SessionState → SessionEvent → Option SessionState
  | _, .session_created ts _ workDir model =>
      some { sessionId := sessionId
             workDir := workDir
             status := .waiting
             createdAt := ts
             lastActivity := ts
             roundCount := 0
             model := model.getD cfgModel
             instructorHistory := [] }
  | some s, .user_message ts content =>
      some { s with
               instructorHistory :=
                 s.instructorHistory ++ [⟨false, .str content, ts⟩]
               lastActivity := ts }
  | some s, .instructor_message ts content =>
      some { s with
               instructorHistory :=
                 s.instructorHistory ++ [⟨true, content, ts⟩]
               lastActivity := ts }
  | some s, .round_complete ts round =>
      some { s with roundCount := round, lastActivity := ts }
  | some s, .status_change ts status =>
      some { s with status := status, lastActivity := ts }
  | some s, .session_ended ts _ =>
      some { s with status := .ended, lastActivity := ts }
  | acc, _ => acc

/-- `reconstructSession` (src/backend/src/session/storage.ts:239-303): a left
fold of the event switch starting from `session = null`. -/
def reconstructSession (cfgModel : String) (sessionId : String)
    (events : List SessionEvent) : Option SessionState :=
  events.foldl (applyEvent cfgModel sessionId) none

/-- Spec-side round bookkeeping: a `round_complete` event overwrites the
count with its carried value, everything else leaves it. -/
def roundStep (acc : Nat) (e : SessionEvent) : Nat :=
  match e with
  | .round_complete _ r => r
  | _ => acc

/-- Spec-side status bookkeeping: `status_change` sets its carried status,
`session_ended` forces `ended`, everything else leaves it. -/
def statusStep (st : SessionStatus) (e : SessionEvent) : SessionStatus :=
  match e with
  | .status_change _ s => s
  | .session_ended _ _ => .ended
  | _ => st

/-- Modelled from the spec: the round count the claim predicts — the `round`
value carried by the last `round_complete` event, or `0` if none occurs. -/
def specLastRound (events : List SessionEvent) : Nat :=
  events.foldl roundStep 0

/-- Modelled from the spec: the status the claim predicts — the effect of the
last status-affecting event, starting from `waiting`. -/
def specStatusEffect (events : List SessionEvent) (init : SessionStatus) : SessionStatus :=
  events.foldl statusStep init

/-! ## Session locks (src/backend/src/session/storage.ts:486-506) -/

/-- The `sessionLocks: Map<string, boolean>` field, modelled as the set of
ids currently mapped to `true` (the only value ever stored). -/
abbrev LockMap := List String

/-- `isLocked` (src/backend/src/session/storage.ts:504-506). -/
def isLocked (locks : LockMap) (id : String) : Bool :=
  locks.contains id

/-- `acquireLock` (src/backend/src/session/storage.ts:486-492): non-blocking;
returns `false` if already locked, else records the lock and returns `true`. -/
def acquireLock (locks : LockMap) (id : String) : Bool × LockMap :=
  if locks.contains id then
    (false, locks)
  else
    (true, id :: locks)

/-- `releaseLock` (src/backend/src/session/storage.ts:497-499):
`sessionLocks.delete(sessionId)`. -/
def releaseLock (locks : LockMap) (id : String) : LockMap :=
  locks.filter (fun x => x != id)

/-! ## SessionManager state and mutating operations
(src/backend/src/session/storage.ts, class `SessionManager`) -/

/-- The `activeSessions: Map<string, SessionState>` field as an association
list keyed by session id. -/
abbrev SessionMap := List (String × SessionState)

/-- Map lookup (`activeSessions.get(sessionId)`). -/
def smLookup (m : SessionMap) (id : String) : Option SessionState :=
  (m.find? (fun e => e.1 == id)).map (fun e => e.2)

/-- Map value replacement for an existing key (the TypeScript code mutates
the looked-up session object in place, leaving the key set unchanged). -/
def smUpdate (m : SessionMap) (id : String) (s : SessionState) : SessionMap :=
  m.map (fun e => if e.1 == id then (id, s) else e)

/-- In-memory manager state plus the per-session persistent log, recorded as
the ordered list of `(sessionId, event)` appends performed so far. -/
structure SMState where
  activeSessions : SessionMap
  sessionLocks : LockMap
  eventLog : List (String × SessionEvent)
deriving DecidableEq, Repr

/-- `updateStatus` (src/backend/src/session/storage.ts:308-320).  `now`
stands for `Date.now()`.  When the id is absent everything is inside the
`if (session)` guard, so the state (log included) is unchanged. -/
def updateStatus (st : SMState) (id : String) (status : SessionStatus) (now : Nat) : SMState :=
  match smLookup st.activeSessions id with
  | none => st
  | some s =>
      let s1 := { s with status := status, lastActivity := now }
      { st with
          activeSessions := smUpdate st.activeSessions id s1
          eventLog := st.eventLog ++ [(id, .status_change now status)] }

/-- `addUserMessage` (src/backend/src/session/storage.ts:325-342). -/
def addUserMessage (st : SMState) (id : String) (content : String) (now : Nat) : SMState :=
  match smLookup st.activeSessions id with
  | none => st
  | some s =>
      let s1 := { s with
                    instructorHistory :=
                      s.instructorHistory ++ [⟨false, .str content, now⟩]
                    lastActivity := now }
      { st with
          activeSessions := smUpdate st.activeSessions id s1
          eventLog := st.eventLog ++ [(id, .user_message now content)] }

/-- `addInstructorMessage` (src/backend/src/session/storage.ts:347-365). -/
def addInstructorMessage (st : SMState) (id : String) (content : MsgContent) (now : Nat) : SMState :=
  match smLookup st.activeSessions id with
  | none => st
  | some s =>
      let s1 := { s with
                    instructorHistory :=
                      s.instructorHistory ++ [⟨true, content, now⟩]
                    lastActivity := now }
      { st with
          activeSessions := smUpdate st.activeSessions id s1
          eventLog := st.eventLog ++ [(id, .instructor_message now content)] }

/-- `completeRound` (src/backend/src/session/storage.ts:370-382) —
`incrementRound` is an alias for it.  The appended `round_complete` event
carries the freshly incremented count. -/
def completeRound (st : SMState) (id : String) (now : Nat) : SMState :=
  match smLookup st.activeSessions id with
  | none => st
  | some s =>
      let s1 := { s with roundCount := s.roundCount + 1, lastActivity := now }
      { st with
          activeSessions := smUpdate st.activeSessions id s1
          eventLog := st.eventLog ++ [(id, .round_complete now s1.roundCount)] }

/-- `addToolResults` (src/backend/src/session/storage.ts:394-416): pushes
the results onto the history as one user-role block turn and appends one
`tool_results` event. -/
def addToolResults (st : SMState) (id : String) (results : List ToolResult) (now : Nat) : SMState :=
  match smLookup st.activeSessions id with
  | none => st
  | some s =>
      let blocks := results.map (fun r => ContentBlock.tool_result r.tool_use_id r.content)
      let s1 := { s with
                    instructorHistory :=
                      s.instructorHistory ++ [⟨false, .blocks blocks, now⟩]
                    lastActivity := now }
      { st with
          activeSessions := smUpdate st.activeSessions id s1
          eventLog := st.eventLog ++ [(id, .tool_results now results)] }

/-- `endSession` (src/backend/src/session/storage.ts:421-439): marks the
session ended, appends a `session_ended` event, and removes the id from the
active-session and lock maps — all guarded by `if (session)`. -/
def endSession (st : SMState) (id : String) (reason : String) (now : Nat) : SMState :=
  match smLookup st.activeSessions id with
  | none => st
  | some _ =>
      { activeSessions := st.activeSessions.filter (fun e => e.1 != id)
        sessionLocks := st.sessionLocks.filter (fun x => x != id)
        eventLog := st.eventLog ++ [(id, .session_ended now reason)] }

/-! ## Path validation (src/backend/src/utils/path-validator.ts) -/

/-- A POSIX path split on `/`: an absoluteness flag plus raw segments, which
may still contain `..`, `.` and empty segments (Node's `resolve`/`normalize`
work on exactly this decomposition). -/
structure Path where
  abs : Bool
  segs : List Str
deriving DecidableEq, Repr

/-- Split a character list on a separator character. -/
def splitOnChar (sep : Char) : Str → List Str
  | [] => [[]]
  | c :: rest =>
      let r := splitOnChar sep rest
      if c = sep then
        [] :: r
      else
        match r with
        | [] => [[c]]
        | h :: t => (c :: h) :: t

/-- Parse a raw path string into its `/`-separated decomposition. -/
def parsePath (s : Str) : Path :=
  { abs := s.head? = some '/', segs := splitOnChar '/' s }

/-- Node `path.normalize` on the segments of an absolute path: drops empty
and `.` segments, and resolves `..` against the accumulated prefix (a `..`
at the root is dropped). -/
def normAbs (segs : List Str) : List Str :=
  segs.foldl
    (fun acc seg =>
      if seg = ([] : Str) ∨ seg = ['.'] then acc
      else if seg = ['.', '.'] then acc.dropLast
      else acc ++ [seg]) []

/-- Node `path.resolve(config.workDir, inputPath)` followed by `normalize`,
at the segment level: an absolute input replaces the working directory, a
relative one is appended to it (path-validator.ts:20-21).  `wd` is the
absolute, already-normalized `config.workDir`. -/
def resolvedSegs (wd : Path) (inputPath : Str) : List Str :=
  let p := parsePath inputPath
  normAbs (if p.abs then p.segs else wd.segs ++ p.segs)

/-- Join segments with `/` separators (no leading slash). -/
def joinSegs : List Str → Str
  | [] => []
  | [s] => s
  | s :: rest => s ++ '/' :: joinSegs rest

/-- Render an absolute path from normalized segments. -/
def renderAbs (segs : List Str) : Str :=
  '/' :: joinSegs segs

/-- Node `path.relative(from, to)` on normalized absolute segment lists:
strip the common prefix, then one `..` per remaining `from` segment followed
by the remaining `to` segments. -/
def relativeSegs : List Str → List Str → List Str
  | [], ts => ts
  | f :: fs, [] => List.replicate (f :: fs).length ['.', '.']
  | f :: fs, t :: ts =>
      if f = t then relativeSegs fs ts
      else List.replicate (f :: fs).length ['.', '.'] ++ (t :: ts)

/-- The sensitive-file denylist (path-validator.ts:33-42): each regex is a
plain suffix/substring test on the normalized absolute path, the last one
case-insensitive. -/
def sensitiveMatch (p : Str) : Bool :=
  strEndsWith p "/.env".data ||
  strContains p "/.env.".data ||
  strEndsWith p "/.git/config".data ||
  strContains p "/.ssh/".data ||
  strEndsWith p "/id_rsa".data ||
  strContains p "/.aws/".data ||
  strContains p "/.anthropic/".data ||
  strContains (toLowerStr p) "password".data

/-- Result type of `validatePath` (path-validator.ts:8-12): `valid` carries
the normalized absolute path, `invalid` the reason string. -/
inductive ValidationResult
  | valid (path : Str)
  | invalid (reason : String)
deriving DecidableEq, Repr

/-- Whether a validation result is the `valid` case. -/
def ValidationResult.isValid : ValidationResult → Bool
  | .valid _ => true
  | .invalid _ => false

/-- `validatePath` (src/backend/src/utils/path-validator.ts:17-61).  The
traversal test is the code's `relative(workDir, normalized).startsWith('..')`
character-prefix check (for inputs built from normalized segments the second
disjunct `normalize(relativePath).startsWith('..')` adds nothing).  The
`catch` branch is unreachable in this typed model: `resolve` only throws on
non-string input. -/
def validatePath (wd : Path) (inputPath : Str) : ValidationResult :=
  let n := resolvedSegs wd inputPath
  let rel := relativeSegs wd.segs n
  if strStartsWith (joinSegs rel) ['.', '.'] then
    .invalid "Path traversal detected: path is outside working directory"
  else if sensitiveMatch (renderAbs n) then
    .invalid "Access to sensitive file denied"
  else
    .valid (renderAbs n)

/-! ## File system and file tools (src/backend/src/tools/file-tools.ts) -/

/-- The file system visible to the file tools: an association list from the
normalized absolute path (as produced by `validatePath`) to file content. -/
abbrev FS := List (Str × Str)

/-- `existsSync` / read: look a path up in the file system. -/
def fsGet (fs : FS) (p : Str) : Option Str :=
  (fs.find? (fun e => e.1 == p)).map (fun e => e.2)

/-- `fs.writeFile`: replace the content at a path, creating it if absent. -/
def fsSet : FS → Str → Str → FS
  | [], p, v => [(p, v)]
  | e :: rest, p, v =>
      if e.1 == p then (p, v) :: rest else e :: fsSet rest p v

/-- `ToolExecutionResult` (src/backend/src/types.ts).  Structured outputs
are carried in their executor-serialized string form (no claim inspects the
serialization itself). -/
structure ToolExecutionResult where
  success : Bool
  output : Option String := none
  error : Option String := none
deriving DecidableEq, Repr

/-- `editFile` (src/backend/src/tools/file-tools.ts:110-162): validate the
path, require the file to exist, require `old_string` to be present
(`content.includes`) and to occur at most once (`split`-count), then replace
the single occurrence and write the file back.  Every failure leaves the
file system unchanged.  The success-output message is abstracted to a fixed
string (no claim reads it). -/
def editFile (wd : Path) (fs : FS) (path old_str new_str : Str) :
    ToolExecutionResult × FS :=
  match validatePath wd path with
  | .invalid reason => ({ success := false, error := some reason }, fs)
  | .valid key =>
      match fsGet fs key with
      | none =>
          ({ success := false, error := some "File not found" }, fs)
      | some content =>
          if strContains content old_str = false then
            ({ success := false
               error := some "Could not find the specified text to replace" }, fs)
          else if countOccurrences content old_str > 1 then
            ({ success := false
               error := some "Found multiple occurrences of the text" }, fs)
          else
            ({ success := true, output := some "Successfully edited" },
             fsSet fs key (replaceFirst old_str new_str content))

/-- `readFile` (src/backend/src/tools/file-tools.ts:24-67): validate, check
existence, read.  The line-numbered rendering of the output is abstracted to
the raw content (no claim reads it). -/
def readFile (wd : Path) (fs : FS) (path : Str) : ToolExecutionResult :=
  match validatePath wd path with
  | .invalid reason => { success := false, error := some reason }
  | .valid key =>
      match fsGet fs key with
      | none => { success := false, error := some "File not found" }
      | some content => { success := true, output := some (String.mk content) }

/-- `writeFile` (src/backend/src/tools/file-tools.ts:72-105): validate, then
write (directory creation has no observable effect in this model). -/
def writeFile (wd : Path) (fs : FS) (path content : Str) :
    ToolExecutionResult × FS :=
  match validatePath wd path with
  | .invalid reason => ({ success := false, error := some reason }, fs)
  | .valid key =>
      ({ success := true, output := some "Successfully wrote file" },
       fsSet fs key content)

/-! ## Permission policy and tool executor (src/backend/src/tools/executor.ts) -/

/-- `PermissionLevel` (src/backend/src/types.ts). -/
inductive PermissionLevel
  | always_allowed
  | ask_user
  | denied
deriving DecidableEq, Repr

/-- The `permissions: Map<string, PermissionLevel>` field. -/
abbrev PermissionMap := List (String × PermissionLevel)

/-- Map lookup (`permissions.get(toolName)`). -/
def permGet (m : PermissionMap) (name : String) : Option PermissionLevel :=
  (m.find? (fun e => e.1 == name)).map (fun e => e.2)

/-- Map assignment (`permissions.set`): replace or append. -/
def permSet : PermissionMap → String → PermissionLevel → PermissionMap
  | [], name, lvl => [(name, lvl)]
  | e :: rest, name, lvl =>
      if e.1 == name then (name, lvl) :: rest else e :: permSet rest name lvl

/-- The `defaults` record of `initializePermissions` (executor.ts:25-36). -/
def defaultPermissionEntries : PermissionMap :=
  [("read_file", .always_allowed),
   ("write_file", .always_allowed),
   ("edit_file", .always_allowed),
   ("glob", .always_allowed),
   ("grep", .always_allowed),
   ("bash_command", .ask_user),
   ("git_status", .always_allowed),
   ("git_diff", .always_allowed),
   ("git_commit", .ask_user),
   ("git_push", .denied)]

/-- The startup allow/ask/deny override lists from `config`. -/
structure ToolConfigLists where
  allowedTools : List String := []
  askUserTools : List String := []
  deniedTools : List String := []

/-- `initializePermissions` (executor.ts:23-53): defaults, then the three
config override lists applied in order. -/
def initializePermissions (cfg : ToolConfigLists) : PermissionMap :=
  let m1 := cfg.allowedTools.foldl (fun m t => permSet m t .always_allowed)
              defaultPermissionEntries
  let m2 := cfg.askUserTools.foldl (fun m t => permSet m t .ask_user) m1
  cfg.deniedTools.foldl (fun m t => permSet m t .denied) m2

/-- `grantPermission` (executor.ts:193-196). -/
def grantPermission (m : PermissionMap) (toolName : String) : PermissionMap :=
  permSet m toolName .always_allowed

/-- `revokePermission` (executor.ts:201-204). -/
def revokePermission (m : PermissionMap) (toolName : String) : PermissionMap :=
  permSet m toolName .denied

/-- Return shape of `checkPermission` (executor.ts:58). -/
structure PermissionCheck where
  allowed : Bool
  needsConfirmation : Bool
  reason : Option String := none
deriving DecidableEq, Repr

/-- `checkPermission` (src/backend/src/tools/executor.ts:58-76): unknown
tools default to ask-user (allowed with the confirmation flag set); the
`default` switch branch is unreachable with the typed enum. -/
def checkPermission (perms : PermissionMap) (toolName : String) : PermissionCheck :=
  match permGet perms toolName with
  | none =>
      { allowed := true, needsConfirmation := true, reason := some "Unknown tool" }
  | some .always_allowed =>
      { allowed := true, needsConfirmation := false }
  | some .ask_user =>
      { allowed := true, needsConfirmation := true }
  | some .denied =>
      { allowed := false, needsConfirmation := false
        reason := some "Tool is disabled by policy" }

/-- `isWorkerCoordinationTool` (src/backend/src/tools/definitions.ts:283-285). -/
def isWorkerCoordinationTool (toolName : String) : Bool :=
  ["call_worker", "tell_worker"].contains toolName

/-- `ToolCall` (src/backend/src/types.ts). -/
structure ToolCall where
  id : String
  name : String
  input : RawInput
deriving DecidableEq, Repr

/-- The world outside the pure file-system model: the subprocess/glob/git
implementations (bash-tools.ts, git-tools.ts, the `glob` library) appear as
oracles that may update the file system or throw (`Except.error` models a
thrown exception, which the executor's `catch` normalizes). -/
structure World where
  fs : FS
  globOutcome : RawInput → FS → Except String (ToolExecutionResult × FS)
  grepOutcome : RawInput → FS → Except String (ToolExecutionResult × FS)
  bashOutcome : RawInput → FS → Except String (ToolExecutionResult × FS)
  gitStatusOutcome : RawInput → FS → Except String (ToolExecutionResult × FS)
  gitCommitOutcome : RawInput → FS → Except String (ToolExecutionResult × FS)
  workerOutcome : RawInput → String

/-- JS `a || b` on an optional string: the default replaces both a missing
and an empty value. -/
def jsOr (s : Option String) (dflt : String) : String :=
  match s with
  | none => dflt
  | some v => if v = "" then dflt else v

/-- Content of the short-circuit marker result for coordination tools
(executor.ts:87-96); the JSON serialization is abstracted to a tagged
string (no claim reads it). -/
def markerContent (name : String) : String :=
  "worker_coordination:" ++ name

/-- `read_file` entry of the executor dispatch: a missing `path` field makes
`resolve` throw inside `validatePath`, which reports an invalid path. -/
def readFileTool (wd : Path) (fs : FS) (inp : RawInput) : ToolExecutionResult :=
  match inp.path with
  | none => { success := false, error := some "Invalid path" }
  | some p => readFile wd fs p

/-- `write_file` entry of the executor dispatch (a missing `content` field
is coerced by Node to the literal string `undefined`). -/
def writeFileTool (wd : Path) (fs : FS) (inp : RawInput) : ToolExecutionResult × FS :=
  match inp.path with
  | none => ({ success := false, error := some "Invalid path" }, fs)
  | some p => writeFile wd fs p ((inp.content.getD "undefined".data))

/-- `edit_file` entry of the executor dispatch (missing `old_string` or
`new_string` are coerced by JS string functions to `"undefined"`). -/
def editFileTool (wd : Path) (fs : FS) (inp : RawInput) : ToolExecutionResult × FS :=
  match inp.path with
  | none => ({ success := false, error := some "Invalid path" }, fs)
  | some p =>
      editFile wd fs p (inp.old_string.getD "undefined".data)
        (inp.new_string.getD "undefined".data)

/-- `execute` (src/backend/src/tools/executor.ts:81-174): coordination-tool
short circuit, permission gate, `try`-wrapped dispatch by name with a
default branch for unknown names, then normalization of the
`{success, output|error}` shape into a `ToolResult`. -/
def execute (wd : Path) (perms : PermissionMap) (w : World) (call : ToolCall) :
    ToolResult × World :=
  if isWorkerCoordinationTool call.name then
    ({ tool_use_id := call.id, content := markerContent call.name }, w)
  else
    let permission := checkPermission perms call.name
    if permission.allowed = false then
      ({ tool_use_id := call.id
         content := "Tool \"" ++ call.name ++ "\" is not allowed: "
                      ++ permission.reason.getD "undefined"
         is_error := some true }, w)
    else
      let dispatched : Except String (ToolExecutionResult × FS) :=
        match call.name with
        | "read_file" => .ok (readFileTool wd w.fs call.input, w.fs)
        | "write_file" => .ok (writeFileTool wd w.fs call.input)
        | "edit_file" => .ok (editFileTool wd w.fs call.input)
        | "glob" => w.globOutcome call.input w.fs
        | "grep" => w.grepOutcome call.input w.fs
        | "bash_command" => w.bashOutcome call.input w.fs
        | "git_status" => w.gitStatusOutcome call.input w.fs
        | "git_commit" => w.gitCommitOutcome call.input w.fs
        | _ => .ok ({ success := false
                      error := some ("Unknown tool: " ++ call.name) }, w.fs)
      let caught : ToolExecutionResult × FS :=
        match dispatched with
        | .ok rf => rf
        | .error msg => ({ success := false, error := some msg }, w.fs)
      let w1 : World := { w with fs := caught.2 }
      if caught.1.success then
        ({ tool_use_id := call.id
           content := caught.1.output.getD "undefined" }, w1)
      else
        ({ tool_use_id := call.id
           content := jsOr caught.1.error "Tool execution failed"
           is_error := some true }, w1)

/-! ## Orchestrator (src/backend/src/orchestrator/index.ts) -/

/-- The sink-protocol messages emitted via `sendMessage` (`ServerMessage`
kinds produced by the orchestrator; payload fields not read by any claim —
timestamps, tool inputs/outputs — are elided). -/
inductive SinkMsg
  | status_update (status : SessionStatus) (round : Nat)
  | thinking (content : String)
  | instructor_message (content : String)
  | worker_message (content : String)
  | tool_use (tool : String)
  | tool_result (tool : String) (success : Bool)
  | waiting_input (prompt : String)
  | round_complete (roundNumber : Nat)
  | done
  | system_message (content : String) (level : String)
  | error (message : String)
deriving DecidableEq, Repr

/-- The terminal response of one `claudeClient.sendMessageStream` call. -/
structure ClaudeResponse where
  content : List ContentBlock
  stop_reason : Option String
deriving DecidableEq, Repr

/-- Joined text of the response's text blocks (orchestrator/index.ts:178-181). -/
def textContent (blocks : List ContentBlock) : String :=
  blocks.foldl
    (fun acc b =>
      match b with
      | .text s => acc ++ s
      | _ => acc) ""

/-- The tool-use blocks of a response (orchestrator/index.ts:195-197). -/
def toolUseBlocks (blocks : List ContentBlock) : List ContentBlock :=
  blocks.filter
    (fun b =>
      match b with
      | .tool_use _ _ _ => true
      | _ => false)

/-- The `{needsUserInput, completed, prompt}` value returned by
`callInstructor`. -/
structure InstructorResult where
  needsUserInput : Bool
  completed : Bool
  prompt : Option String := none
deriving DecidableEq, Repr

/-- The zero-tool-block disambiguation and tool branch of `callInstructor`
(src/backend/src/orchestrator/index.ts:195-205, 276): with no tool-use
blocks, stop reason `end_turn` means waiting-for-user and any other value —
including an absent stop reason — means completed; with tool-use blocks the
call reports neither. -/
def classifyResponse (resp : ClaudeResponse) : InstructorResult :=
  if (toolUseBlocks resp.content).isEmpty then
    if resp.stop_reason = some "end_turn" then
      { needsUserInput := true, completed := false
        prompt := some (textContent resp.content) }
    else
      { needsUserInput := false, completed := true }
  else
    { needsUserInput := false, completed := false }

/-- Accumulated effect of the per-block tool iteration of `callInstructor`. -/
structure ToolPhase where
  world : World
  status : SessionStatus
  emitted : List SinkMsg
  results : List ToolResult

/-- The tool-use iteration of `callInstructor`
(src/backend/src/orchestrator/index.ts:210-271): emit `tool_use`; a
`call_worker` block sets status `executing` and takes the worker sub-loop's
final text (abstracted as the `workerOutcome` oracle) as a non-error result;
a `tell_worker` block is acknowledged without further emissions; any other
name sets status `executing` and dispatches to the executor.  Abort checks
are modelled at the `runWithCallback` level. -/
def runToolPhase (wd : Path) (perms : PermissionMap) (round : Nat)
    (w : World) (st : SessionStatus) : List ContentBlock → ToolPhase
  | [] => { world := w, status := st, emitted := [], results := [] }
  | .tool_use tid name inp :: rest =>
      let head : ToolPhase :=
        if name = "call_worker" then
          { world := w
            status := .executing
            emitted := [.tool_use name, .status_update .executing round,
                        .tool_result name true]
            results := [{ tool_use_id := tid, content := w.workerOutcome inp
                          is_error := some false }] }
        else if name = "tell_worker" then
          { world := w
            status := st
            emitted := [.tool_use name]
            results := [{ tool_use_id := tid, content := "Instruction noted."
                          is_error := some false }] }
        else
          let rw := execute wd perms w { id := tid, name := name, input := inp }
          { world := rw.2
            status := .executing
            emitted := [.tool_use name, .status_update .executing round,
                        .tool_result name (rw.1.is_error != some true)]
            results := [rw.1] }
      let tail := runToolPhase wd perms round head.world head.status rest
      { world := tail.world
        status := tail.status
        emitted := head.emitted ++ tail.emitted
        results := head.results ++ tail.results }
  | _ :: rest => runToolPhase wd perms round w st rest

/-- `runInstructorLoop` (src/backend/src/orchestrator/index.ts:93-150)
driven by a scripted Agent Client: `script n` is the Instructor response of
the call made at `roundCount = n`.  Each iteration sets status `thinking`,
emits a status update, records the assistant response in history, and then
either suspends (`waiting_input`), finishes (`done`), or runs the tool phase
and increments the round; when `roundCount` reaches `maxRounds` the loop
exits with a warning system message and status `waiting`.  In-memory session
mutations are mirrored on the `SessionState`; the corresponding persistent
appends are modelled by the `SessionManager` operations above.  History
timestamps are written as `0` (`Date.now()` is not observable here). -/
def runLoopGo (wd : Path) (perms : PermissionMap)
    (script : Nat → ClaudeResponse) (maxRounds : Nat) :
    Nat → SessionState → World → List SinkMsg →
    SessionState × World × List SinkMsg
  | 0, s, w, msgs =>
      -- `fuel = maxRounds - roundCount`, so fuel 0 is exactly the
      -- `while` guard `roundCount < maxRounds` failing: max rounds reached.
      ({ s with status := .waiting }, w,
       msgs ++ [SinkMsg.system_message
                  "Maximum rounds reached. Please provide new instructions." "warning",
                SinkMsg.status_update .waiting s.roundCount])
  | fuel + 1, s, w, msgs =>
    let s1 : SessionState := { s with status := .thinking }
    let m1 := msgs ++ [SinkMsg.status_update .thinking s1.roundCount]
    let resp := script s1.roundCount
    let txt := textContent resp.content
    let m2 := m1 ++ (if txt = "" then [] else [SinkMsg.instructor_message txt])
    let s2 : SessionState :=
      { s1 with instructorHistory :=
                  s1.instructorHistory ++ [⟨true, .blocks resp.content, 0⟩] }
    let r := classifyResponse resp
    if r.needsUserInput then
      ({ s2 with status := .waiting }, w,
       m2 ++ [SinkMsg.waiting_input (jsOr r.prompt "Waiting for your input..."),
              SinkMsg.status_update .waiting s2.roundCount])
    else if r.completed then
      ({ s2 with status := .waiting }, w,
       m2 ++ [SinkMsg.done, SinkMsg.status_update .waiting s2.roundCount])
    else
      let phase := runToolPhase wd perms s2.roundCount w s2.status
                     (toolUseBlocks resp.content)
      let hist := s2.instructorHistory ++
        [⟨false,
          .blocks (phase.results.map
            (fun tr => ContentBlock.tool_result tr.tool_use_id tr.content)), 0⟩]
      runLoopGo wd perms script maxRounds fuel
        { s2 with status := phase.status
                  instructorHistory := hist
                  roundCount := s2.roundCount + 1 }
        phase.world
        (m2 ++ phase.emitted ++ [SinkMsg.round_complete (s2.roundCount + 1)])

/-- `runInstructorLoop` entry point: run the `while` loop starting from the
session's current round count, with the fuel fixed to the remaining
iteration budget `maxRounds - roundCount` (so running out of fuel coincides
with the loop guard failing). -/
def runInstructorLoop (wd : Path) (perms : PermissionMap)
    (script : Nat → ClaudeResponse) (maxRounds : Nat)
    (s : SessionState) (w : World) (msgs : List SinkMsg) :
    SessionState × World × List SinkMsg :=
  runLoopGo wd perms script maxRounds (maxRounds - s.roundCount) s w msgs

/-! ## `runWithCallback` exit discipline
(src/backend/src/orchestrator/index.ts:36-84) -/

/-- How the `try` body (`runInstructorLoop` plus the backend calls inside
it) ends: a normal return (completion, suspension for user input, or
max-rounds exhaustion), an `AbortError` thrown by an abort check, or any
other thrown error. -/
inductive LoopOutcome
  | returned
  | abortError
  | thrownError (msg : String)
deriving DecidableEq, Repr

/-- Observable lock/marker operations of one `runWithCallback` invocation. -/
inductive LockOp
  | acquire (id : String)
  | release (id : String)
  | removeMarker (id : String)
deriving DecidableEq, Repr

/-- How `runWithCallback` itself exits toward its caller. -/
inductive RunExit
  | alreadyRunning
  | thrownNotFound
  | thrownLocked
  | finished
deriving DecidableEq, Repr

/-- The orchestrator's shared state: the `activeRuns` key set and the
session-lock map. -/
structure OrchState where
  activeRuns : List String
  locks : LockMap
deriving DecidableEq, Repr

/-- `runWithCallback` (src/backend/src/orchestrator/index.ts:36-84):
early-return if the session already has an active run; throw if the session
is unknown or the lock is taken; otherwise register the run marker, run the
loop inside `try`/`catch` (an abort is reported as an informational system
message, any other error as an `error` message), and in `finally` release
the lock and delete the run marker.  The loop body's own behaviour is
summarized by `outcome`; `sessionFound` is `getSession(sessionId) !==
undefined`.  The returned trace records the lock/marker operations in
order. -/
def runWithCallback (st : OrchState) (sessionFound : Bool) (id : String)
    (outcome : LoopOutcome) : OrchState × RunExit × List SinkMsg × List LockOp :=
  if st.activeRuns.contains id then
    (st, .alreadyRunning, [], [])
  else if sessionFound = false then
    (st, .thrownNotFound, [], [])
  else
    let acq := acquireLock st.locks id
    if acq.1 = false then
      (st, .thrownLocked, [], [])
    else
      let st1 : OrchState := { activeRuns := id :: st.activeRuns, locks := acq.2 }
      let caughtMsgs : List SinkMsg :=
        match outcome with
        | .returned => []
        | .abortError => [.system_message "Interrupted by user" "warning"]
        | .thrownError m => [.error ("Error: " ++ m)]
      let st2 : OrchState :=
        { activeRuns := st1.activeRuns.filter (fun x => x != id)
          locks := releaseLock st1.locks id }
      (st2, .finished, caughtMsgs, [.acquire id, .release id, .removeMarker id])

/-! # Theorems -/

/-! ## Helper lemmas -/

/-- Removing an id from the lock set removes its membership. -/
theorem not_mem_filter_ne (l : List String) (id : String) :
    id ∉ l.filter (fun x => x != id) := by
  intro hmem
  have := List.of_mem_filter hmem
  simp at this

/-- Filtering out an id twice is the same as once. -/
theorem filter_ne_idem (l : List String) (id : String) :
    ((l.filter (fun x => x != id)).filter (fun x => x != id)) =
      l.filter (fun x => x != id) := by
  rw [List.filter_filter]
  apply List.filter_congr
  intro x _
  cases h : x != id <;> simp [h]

/-! ## C4 — lock exclusivity, non-blocking acquire, idempotent release -/

/-- C4: `acquireLock` is exclusive and non-blocking — for an id that is not
currently locked, two sequential `acquireLock` calls return `true` then
`false`; after a `releaseLock`, `acquireLock` returns `true` again; and
`releaseLock` is idempotent (a second release leaves the lock map exactly as
after the first). -/
theorem acquireLock_exclusive_release_idempotent :
    ∀ (locks : LockMap) (id : String),
      (isLocked locks id = false →
        (acquireLock locks id).1 = true ∧
        (acquireLock (acquireLock locks id).2 id).1 = false) ∧
      (acquireLock (releaseLock locks id) id).1 = true ∧
      releaseLock (releaseLock locks id) id = releaseLock locks id := by
  intro locks id
  have hrel : id ∉ releaseLock locks id := not_mem_filter_ne locks id
  refine ⟨?_, ?_, ?_⟩
  · intro h
    have h2 : id ∉ locks := by simpa [isLocked] using h
    exact ⟨by simp [acquireLock, h2], by simp [acquireLock, h2]⟩
  · simp [acquireLock, hrel]
  · exact filter_ne_idem locks id

/-- C4 witness at a concrete lock map and id. -/
theorem acquireLock_exclusive_release_idempotent_witness :
    (acquireLock ([] : LockMap) "abc12345").1 = true ∧
    (acquireLock (acquireLock ([] : LockMap) "abc12345").2 "abc12345").1 = false :=
  (acquireLock_exclusive_release_idempotent [] "abc12345").1 (by rfl)

/-! ## C10 — mutating SessionManager operations are silent no-ops for
absent ids -/

/-- C10: every mutating `SessionManager` operation keyed by session id is a
silent no-op when the id is not in the in-memory active-session map — the
state, the persistent event log and the lock map are all unchanged, and no
error is reported. -/
theorem sessionManager_absent_id_noop :
    ∀ (st : SMState) (id : String) (status : SessionStatus) (content : String)
      (mc : MsgContent) (results : List ToolResult) (reason : String) (now : Nat),
      smLookup st.activeSessions id = none →
      updateStatus st id status now = st ∧
      addUserMessage st id content now = st ∧
      addInstructorMessage st id mc now = st ∧
      completeRound st id now = st ∧
      addToolResults st id results now = st ∧
      endSession st id reason now = st := by
  intro st id status content mc results reason now h
  refine ⟨?_, ?_, ?_, ?_, ?_, ?_⟩ <;>
    simp [updateStatus, addUserMessage, addInstructorMessage, completeRound,
          addToolResults, endSession, h]

/-- C10 witness: a concrete manager state holding only session `"a1"`, probed
with the absent id `"b2"`. -/
theorem sessionManager_absent_id_noop_witness :
    updateStatus
        { activeSessions := [], sessionLocks := ["a1"],
          eventLog := [("a1", .session_ended 5 "user_exit")] : SMState }
        "b2" .waiting 7 =
      { activeSessions := [], sessionLocks := ["a1"],
        eventLog := [("a1", .session_ended 5 "user_exit")] : SMState } :=
  (sessionManager_absent_id_noop
    { activeSessions := [], sessionLocks := ["a1"],
      eventLog := [("a1", .session_ended 5 "user_exit")] }
    "b2" .waiting "" (.str "") [] "" 7 (by rfl)).1

/-! ## C3 — the executor is total and result ids match call ids -/

/-- C3: for every `ToolCall` — any tool name (coordination, built-in, or
unknown) and any input, over any file system and any oracle behaviour for
the subprocess-backed tools, including ones that throw — `execute` returns
exactly one `ToolResult` whose `tool_use_id` equals the call's id.
`execute` is a total Lean function, so no exception can propagate: every
internal failure is encoded in the returned result (`is_error = some true`),
never a dropped result. -/
theorem execute_total_matching_id :
    ∀ (wd : Path) (perms : PermissionMap) (w : World) (call : ToolCall),
      (execute wd perms w call).1.tool_use_id = call.id := by
  intro wd perms w call
  unfold execute
  dsimp only
  split
  · rfl
  · split
    · rfl
    · split <;> rfl

/-! ## C2 — event replay fold -/

/-- Events that are not `session_created` are skipped while no session has
been initialized. -/
theorem foldEvents_none (cfg sid : String) :
    ∀ (pre : List SessionEvent), (∀ e ∈ pre, e.isCreated = false) →
      List.foldl (applyEvent cfg sid) none pre = none := by
  intro pre
  induction pre with
  | nil => intro _; rfl
  | cons e t ih =>
      intro h
      have he := h e (by simp)
      have ht : ∀ x ∈ t, x.isCreated = false := fun x hx => h x (by simp [hx])
      cases e <;> simp [SessionEvent.isCreated] at he <;>
        simpa [applyEvent] using ih ht

/-- Folding a `session_created`-free tail from an initialized session tracks
the spec-side round and status folds exactly. -/
theorem foldEvents_some (cfg sid : String) :
    ∀ (rest : List SessionEvent) (s : SessionState),
      (∀ e ∈ rest, e.isCreated = false) →
      ∃ s2, List.foldl (applyEvent cfg sid) (some s) rest = some s2 ∧
        s2.roundCount = rest.foldl roundStep s.roundCount ∧
        s2.status = rest.foldl statusStep s.status := by
  intro rest
  induction rest with
  | nil => intro s _; exact ⟨s, rfl, rfl, rfl⟩
  | cons e t ih =>
      intro s h
      have he := h e (by simp)
      have ht : ∀ x ∈ t, x.isCreated = false := fun x hx => h x (by simp [hx])
      cases e <;> simp [SessionEvent.isCreated] at he <;>
        · simp only [List.foldl_cons, applyEvent, roundStep, statusStep]
          exact ih _ ht

/-- C2: replaying a persisted event sequence — any non-created prefix,
then the session's `session_created` event, then the rest of its log —
first skips the prefix without error, and yields a session whose
`roundCount` is the value of the last `round_complete` event (`0` if none)
and whose `status` is the effect of the last status-affecting event,
starting from `waiting` (not `initializing`). -/
theorem reconstructSession_replay (cfg sid sid2 wd : String) (model : Option String)
    (ts : Nat) (pre rest : List SessionEvent)
    (hpre : ∀ e ∈ pre, e.isCreated = false)
    (hrest : ∀ e ∈ rest, e.isCreated = false) :
    reconstructSession cfg sid
        (pre ++ SessionEvent.session_created ts sid2 wd model :: rest) =
      reconstructSession cfg sid
        (SessionEvent.session_created ts sid2 wd model :: rest) ∧
    ∃ s, reconstructSession cfg sid
          (pre ++ SessionEvent.session_created ts sid2 wd model :: rest) = some s ∧
      s.roundCount = specLastRound rest ∧
      s.status = specStatusEffect rest .waiting := by
  have hskip :
      reconstructSession cfg sid
          (pre ++ SessionEvent.session_created ts sid2 wd model :: rest) =
        reconstructSession cfg sid
          (SessionEvent.session_created ts sid2 wd model :: rest) := by
    unfold reconstructSession
    rw [List.foldl_append, foldEvents_none cfg sid pre hpre]
  refine ⟨hskip, ?_⟩
  rw [hskip]
  unfold reconstructSession
  rw [List.foldl_cons]
  obtain ⟨s2, h1, h2, h3⟩ :=
    foldEvents_some cfg sid rest
      { sessionId := sid, workDir := wd, status := .waiting, createdAt := ts
        lastActivity := ts, roundCount := 0, model := model.getD cfg
        instructorHistory := [] } hrest
  exact ⟨s2, by simpa [applyEvent] using h1, h2, h3⟩

/-- C2 witness: a concrete log with a skipped orphan event, two rounds and a
trailing status change. -/
theorem reconstructSession_replay_witness :
    ∃ s, reconstructSession "m0" "a1"
          ([SessionEvent.round_complete 1 7] ++
            SessionEvent.session_created 2 "a1" "/tmp/proj" (some "m1") ::
            [SessionEvent.user_message 3 "hi",
             SessionEvent.round_complete 4 1,
             SessionEvent.round_complete 5 2,
             SessionEvent.status_change 6 .thinking]) = some s ∧
      s.roundCount = 2 ∧ s.status = .thinking := by
  obtain ⟨h1, s, h2, h3, h4⟩ :=
    reconstructSession_replay "m0" "a1" "a1" "/tmp/proj" (some "m1") 2
      [SessionEvent.round_complete 1 7]
      [SessionEvent.user_message 3 "hi",
       SessionEvent.round_complete 4 1,
       SessionEvent.round_complete 5 2,
       SessionEvent.status_change 6 .thinking]
      (by decide) (by decide)
  exact ⟨s, h2, by rw [h3]; rfl, by rw [h4]; rfl⟩

/-! ## C6 — permission gating -/

/-- A concrete working directory for witness evaluations. -/
def wdDefault : Path :=
  { abs := true, segs := ["home".data, "user".data] }

/-- A concrete world for witness evaluations: empty file system, every
subprocess-backed tool throws, the worker returns a fixed text. -/
def trivialWorld : World :=
  { fs := []
    globOutcome := fun _ _ => .error "glob unavailable"
    grepOutcome := fun _ _ => .error "grep unavailable"
    bashOutcome := fun _ _ => .error "bash unavailable"
    gitStatusOutcome := fun _ _ => .error "git unavailable"
    gitCommitOutcome := fun _ _ => .error "git unavailable"
    workerOutcome := fun _ => "Worker completed task." }

/-- C6 counterexample: the claim is false as stated.  After
`revokePermission("call_worker")` — a state reachable through the executor's
own public API — the permission map sends `call_worker` to `denied`, yet
`execute` short-circuits on the coordination-tool check *before* the
permission gate and returns the marker result with no error flag instead of
a policy error. -/
theorem execute_denied_coordination_counterexample :
    permGet (revokePermission defaultPermissionEntries "call_worker") "call_worker"
        = some PermissionLevel.denied ∧
    (execute wdDefault (revokePermission defaultPermissionEntries "call_worker")
        trivialWorld { id := "t1", name := "call_worker", input := {} }).1.is_error
      = none := by
  exact ⟨by rfl, by rfl⟩

/-- C6 (amended): for every tool call whose name is **not a coordination
tool** and maps to `denied`, `execute` returns an error result citing policy
and performs no side effect (the world is returned unchanged, no tool
implementation is dispatched); and every tool name with no permission entry
defaults to ask-user — allowed with the confirmation flag set — never
silently allowed without the flag and never denied. -/
theorem execute_denied_and_unknown_default :
    (∀ (wd : Path) (perms : PermissionMap) (w : World) (call : ToolCall),
        isWorkerCoordinationTool call.name = false →
        permGet perms call.name = some PermissionLevel.denied →
        (execute wd perms w call).1 =
          { tool_use_id := call.id
            content := "Tool \"" ++ call.name ++ "\" is not allowed: "
                          ++ "Tool is disabled by policy"
            is_error := some true } ∧
        (execute wd perms w call).2 = w) ∧
    (∀ (perms : PermissionMap) (name : String),
        permGet perms name = none →
        checkPermission perms name =
          { allowed := true, needsConfirmation := true, reason := some "Unknown tool" }) := by
  constructor
  · intro wd perms w call hcoord hperm
    constructor <;> simp [execute, hcoord, checkPermission, hperm]
  · intro perms name h
    simp [checkPermission, h]

/-- C6 witness: `git_push` is denied in the default permission map and gets
the policy error; `frobnicate` has no entry and defaults to ask-user. -/
theorem execute_denied_and_unknown_default_witness :
    (execute wdDefault defaultPermissionEntries trivialWorld
        { id := "t9", name := "git_push", input := {} }).1 =
      { tool_use_id := "t9"
        content := "Tool \"git_push\" is not allowed: Tool is disabled by policy"
        is_error := some true } ∧
    checkPermission defaultPermissionEntries "frobnicate" =
      { allowed := true, needsConfirmation := true, reason := some "Unknown tool" } :=
  ⟨(execute_denied_and_unknown_default.1 wdDefault defaultPermissionEntries
      trivialWorld { id := "t9", name := "git_push", input := {} }
      (by rfl) (by rfl)).1,
   execute_denied_and_unknown_default.2 defaultPermissionEntries "frobnicate" (by rfl)⟩

/-! ## C7 — edit requires a unique occurrence -/

/-- The empty string is contained in every string. -/
theorem strContains_nil (s : Str) : strContains s [] = true := by
  cases s <;> simp [strContains]

/-- A positive scan count implies the pattern occurs (`includes` holds). -/
theorem contains_of_countOccFuel_pos (sub : Str) :
    ∀ (fuel : Nat) (s : Str), 0 < countOccFuel sub fuel s →
      strContains s sub = true := by
  intro fuel
  induction fuel with
  | zero => intro s h; simp [countOccFuel] at h
  | succ n ih =>
      intro s h
      cases s with
      | nil => simp [countOccFuel] at h
      | cons c rest =>
          by_cases hp : sub.isPrefixOf (c :: rest)
          · simp [strContains, List.tails_cons, hp]
          · rw [countOccFuel, if_neg hp] at h
            have := ih rest h
            simp [strContains, List.tails_cons]
            right
            simpa [strContains] using this

/-- A positive `split`-count implies the pattern occurs. -/
theorem contains_of_count_pos (s sub : Str) :
    0 < countOccurrences s sub → strContains s sub = true := by
  intro h
  by_cases he : sub.isEmpty
  · have : sub = [] := by simpa [List.isEmpty_iff] using he
    simp [this, strContains_nil]
  · rw [countOccurrences, if_neg he] at h
    exact contains_of_countOccFuel_pos sub s.length s h

/-- C7: `editFile` requires `old_string` to occur exactly once.  For a valid
path whose file exists with content `content`: if `old_string` does not
occur (`includes` fails, i.e. zero occurrences), the call errors and the
file system is unchanged; if the `split`-based occurrence count exceeds one,
the call errors and the file system is unchanged (the first match is never
silently picked); if the count is exactly one, the call succeeds and the new
file system holds the original content with that single (leftmost)
occurrence replaced by `new_string`. -/
theorem editFile_unique_occurrence :
    ∀ (wd : Path) (fs : FS) (path old_str new_str key content : Str),
      validatePath wd path = ValidationResult.valid key →
      fsGet fs key = some content →
      ((strContains content old_str = false →
          (editFile wd fs path old_str new_str).1.success = false ∧
          (editFile wd fs path old_str new_str).2 = fs) ∧
       (countOccurrences content old_str > 1 →
          (editFile wd fs path old_str new_str).1.success = false ∧
          (editFile wd fs path old_str new_str).2 = fs) ∧
       (countOccurrences content old_str = 1 →
          (editFile wd fs path old_str new_str).1.success = true ∧
          (editFile wd fs path old_str new_str).2 =
            fsSet fs key (replaceFirst old_str new_str content))) := by
  intro wd fs path old_str new_str key content hv hf
  refine ⟨?_, ?_, ?_⟩
  · intro h
    constructor <;> simp [editFile, hv, hf, h]
  · intro h
    by_cases hc : strContains content old_str = true
    · constructor <;> simp [editFile, hv, hf, hc, h]
    · have hc2 : strContains content old_str = false := by
        cases hcc : strContains content old_str
        · rfl
        · exact absurd hcc hc
      constructor <;> simp [editFile, hv, hf, hc2]
  · intro h
    have hc : strContains content old_str = true :=
      contains_of_count_pos content old_str (by omega)
    have hn : ¬ countOccurrences content old_str > 1 := by omega
    constructor <;> simp [editFile, hv, hf, hc, h]

/-- C7 witness: in a file `/home/user/notes.txt` containing `hello world`,
replacing the uniquely occurring `world` by `there` succeeds and rewrites
exactly that occurrence. -/
theorem editFile_unique_occurrence_witness :
    (editFile wdDefault [("/home/user/notes.txt".data, "hello world".data)]
        "notes.txt".data "world".data "there".data).1.success = true ∧
    (editFile wdDefault [("/home/user/notes.txt".data, "hello world".data)]
        "notes.txt".data "world".data "there".data).2 =
      [("/home/user/notes.txt".data, "hello there".data)] := by
  have h :=
    (editFile_unique_occurrence wdDefault
      [("/home/user/notes.txt".data, "hello world".data)]
      "notes.txt".data "world".data "there".data
      "/home/user/notes.txt".data "hello world".data
      (by decide) (by decide)).2.2 (by decide)
  exact ⟨h.1, by rw [h.2]; decide⟩

/-! ## C8 — path guard -/

/-- When `from` is not a prefix of `to`, the relative path starts with a
`..` segment. -/
theorem relativeSegs_head_dotdot :
    ∀ (f t : List Str), ¬ (f <+: t) →
      ∃ rest, relativeSegs f t = ['.', '.'] :: rest := by
  intro f
  induction f with
  | nil => intro t h; exact absurd (List.nil_prefix) h
  | cons a fs ih =>
      intro t h
      cases t with
      | nil =>
          exact ⟨List.replicate fs.length ['.', '.'],
                 by simp [relativeSegs, List.replicate_succ]⟩
      | cons b ts =>
          by_cases hab : a = b
          · subst hab
            have h2 : ¬ (fs <+: ts) := by
              intro hp
              exact h (List.cons_prefix_cons.mpr ⟨rfl, hp⟩)
            obtain ⟨rest, hr⟩ := ih ts h2
            exact ⟨rest, by simpa [relativeSegs] using hr⟩
          · exact ⟨List.replicate fs.length ['.', '.'] ++ (b :: ts),
                   by simp [relativeSegs, hab, List.replicate_succ]⟩

/-- A joined segment list starts with its first segment. -/
theorem strStartsWith_joinSegs (s : Str) (rest : List Str) :
    strStartsWith (joinSegs (s :: rest)) s = true := by
  cases rest with
  | nil =>
      simp [joinSegs, strStartsWith, List.isPrefixOf_iff_prefix]
  | cons b t =>
      simp only [joinSegs, strStartsWith]
      rw [List.isPrefixOf_iff_prefix]
      exact List.prefix_append s ('/' :: joinSegs (b :: t))

/-- C8: the path guard.  For every input path whose resolution against the
working directory and normalization (`resolvedSegs`) falls outside the
working directory — i.e. the working directory's segments are not a prefix
of the normalized result — `validatePath` reports the traversal error; this
depends only on the path, never on whether the target exists (no file
system appears in `validatePath`).  Every path whose normalized form matches
the sensitive-file denylist is likewise rejected.  File tools consult the
guard first, so `editFile` on an escaping path errors and leaves the file
system unchanged. -/
theorem validatePath_guard :
    ∀ (wd : Path) (inputPath : Str),
      (¬ (wd.segs <+: resolvedSegs wd inputPath) →
        validatePath wd inputPath =
          ValidationResult.invalid
            "Path traversal detected: path is outside working directory") ∧
      (sensitiveMatch (renderAbs (resolvedSegs wd inputPath)) = true →
        (validatePath wd inputPath).isValid = false) ∧
      (¬ (wd.segs <+: resolvedSegs wd inputPath) →
        ∀ (fs : FS) (old_str new_str : Str),
          (editFile wd fs inputPath old_str new_str).1.success = false ∧
          (editFile wd fs inputPath old_str new_str).2 = fs) := by
  intro wd inputPath
  have htrav : ¬ (wd.segs <+: resolvedSegs wd inputPath) →
      validatePath wd inputPath =
        ValidationResult.invalid
          "Path traversal detected: path is outside working directory" := by
    intro h
    obtain ⟨rest, hr⟩ := relativeSegs_head_dotdot wd.segs (resolvedSegs wd inputPath) h
    unfold validatePath
    dsimp only
    rw [hr]
    rw [if_pos (strStartsWith_joinSegs ['.', '.'] rest)]
  refine ⟨htrav, ?_, ?_⟩
  · intro hs
    unfold validatePath
    dsimp only
    rw [if_pos hs]
    split
    · rfl
    · rfl
  · intro h fs old_str new_str
    have hv := htrav h
    constructor <;> simp [editFile, hv]

/-- C8 witness: from working directory `/home/user`, the escaping input
`../../etc/hosts` is rejected as traversal (no such file needs to exist),
and `editFile` on it fails leaving the file system unchanged; the in-tree
input `.env` matches the sensitive denylist and is rejected as well. -/
theorem validatePath_guard_witness :
    validatePath wdDefault "../../etc/hosts".data =
      ValidationResult.invalid
        "Path traversal detected: path is outside working directory" ∧
    (editFile wdDefault [] "../../etc/hosts".data "a".data "b".data).2 = [] ∧
    (validatePath wdDefault ".env".data).isValid = false := by
  refine ⟨?_, ?_, ?_⟩
  · exact (validatePath_guard wdDefault "../../etc/hosts".data).1 (by decide)
  · exact ((validatePath_guard wdDefault "../../etc/hosts".data).2.2 (by decide)
      [] "a".data "b".data).2
  · exact (validatePath_guard wdDefault ".env".data).2.1 (by decide)

/-! ## C1 — zero-tool-block disambiguation by stop reason -/

/-- Whether a sink message is a `waiting_input` event. -/
def isWaitingInputMsg : SinkMsg → Bool
  | .waiting_input _ => true
  | _ => false

/-- A freshly loaded session about to process new user input. -/
def initialSession : SessionState :=
  { sessionId := "a1", workDir := "/tmp/proj", status := .waiting
    createdAt := 0, lastActivity := 0, roundCount := 0, model := "m1"
    instructorHistory := [] }

/-- C1 counterexample: the claim is false as stated.  For a response with
zero tool-use blocks and an **absent** stop reason (`stop_reason = none`,
the unavailable-signal case), `callInstructor` classifies the turn as
completed, and the orchestrator run emits `done` — not `waiting_input` —
contradicting the claimed treat-as-waiting default. -/
theorem stopReason_unavailable_counterexample :
    classifyResponse { content := [ContentBlock.text "All done."], stop_reason := none } =
      { needsUserInput := false, completed := true, prompt := none } ∧
    SinkMsg.done ∈
      (runInstructorLoop wdDefault defaultPermissionEntries
        (fun _ => { content := [ContentBlock.text "All done."], stop_reason := none })
        3 initialSession trivialWorld []).2.2 ∧
    ((runInstructorLoop wdDefault defaultPermissionEntries
        (fun _ => { content := [ContentBlock.text "All done."], stop_reason := none })
        3 initialSession trivialWorld []).2.2.any isWaitingInputMsg) = false := by
  refine ⟨rfl, ?_, ?_⟩ <;> decide

/-- C1 (amended): for a response with zero tool-use blocks the orchestrator
disambiguates on the backend stop reason — exactly the value `end_turn`
means waiting-for-user (suspend with a `waiting_input` outcome carrying the
text as prompt); **any** other stop-reason value, and in particular an
absent/unrecognized one, means the turn is treated as done. -/
theorem stopReason_disambiguation :
    ∀ (resp : ClaudeResponse), (toolUseBlocks resp.content).isEmpty = true →
      (resp.stop_reason = some "end_turn" →
        classifyResponse resp =
          { needsUserInput := true, completed := false
            prompt := some (textContent resp.content) }) ∧
      (resp.stop_reason ≠ some "end_turn" →
        classifyResponse resp =
          { needsUserInput := false, completed := true, prompt := none }) := by
  intro resp h
  constructor
  · intro hs
    simp [classifyResponse, h, hs]
  · intro hs
    simp [classifyResponse, h, hs]

/-- C1 witness: a text-only response classified both ways — `end_turn`
suspends for user input, a different stop reason completes. -/
theorem stopReason_disambiguation_witness :
    classifyResponse { content := [ContentBlock.text "q"], stop_reason := some "end_turn" } =
      { needsUserInput := true, completed := false, prompt := some "q" } ∧
    classifyResponse { content := [ContentBlock.text "q"], stop_reason := some "max_tokens" } =
      { needsUserInput := false, completed := true, prompt := none } := by
  constructor
  · have h := (stopReason_disambiguation
      { content := [ContentBlock.text "q"], stop_reason := some "end_turn" }
      (by rfl)).1 rfl
    simpa using h
  · exact (stopReason_disambiguation
      { content := [ContentBlock.text "q"], stop_reason := some "max_tokens" }
      (by rfl)).2 (by simp)

/-! ## C9 — termination via max rounds -/

/-- Whether a response contains at least one tool-use block. -/
def hasToolUse (resp : ClaudeResponse) : Bool :=
  !(toolUseBlocks resp.content).isEmpty

/-- With an always-tool-use script the loop consumes all its fuel, one round
per unit, and exits through the max-rounds branch: status `waiting`, the
round count advanced by exactly the fuel, and the warning system message
emitted. -/
theorem runLoopGo_always_tools (wd : Path) (perms : PermissionMap)
    (script : Nat → ClaudeResponse) (maxRounds : Nat)
    (hscript : ∀ n, hasToolUse (script n) = true) :
    ∀ (fuel : Nat) (s : SessionState) (w : World) (msgs : List SinkMsg),
      (runLoopGo wd perms script maxRounds fuel s w msgs).1.status = .waiting ∧
      (runLoopGo wd perms script maxRounds fuel s w msgs).1.roundCount
        = s.roundCount + fuel ∧
      SinkMsg.system_message
          "Maximum rounds reached. Please provide new instructions." "warning"
        ∈ (runLoopGo wd perms script maxRounds fuel s w msgs).2.2 := by
  intro fuel
  induction fuel with
  | zero =>
      intro s w msgs
      refine ⟨rfl, rfl, ?_⟩
      simp [runLoopGo]
  | succ n ih =>
      intro s w msgs
      have hne : (toolUseBlocks (script s.roundCount).content).isEmpty = false := by
        have := hscript s.roundCount
        simpa [hasToolUse] using this
      have hcl : classifyResponse (script s.roundCount) =
          { needsUserInput := false, completed := false, prompt := none } := by
        simp [classifyResponse, hne]
      rw [runLoopGo]
      dsimp only
      rw [hcl]
      dsimp only
      obtain ⟨h1, h2, h3⟩ := ih _ _ _
      refine ⟨h1, h2.trans ?_, h3⟩
      dsimp only
      omega

/-- C9: for every scripted Agent Client whose responses always contain
tool-use blocks, the Instructor loop terminates after exactly `maxRounds`
rounds (rather than running unbounded — the loop is a total function), and
the run then sets status `waiting` and emits the warning system message. -/
theorem runLoop_max_rounds_termination :
    ∀ (wd : Path) (perms : PermissionMap) (script : Nat → ClaudeResponse)
      (maxRounds : Nat) (s : SessionState) (w : World),
      (∀ n, hasToolUse (script n) = true) →
      s.roundCount = 0 →
      (runInstructorLoop wd perms script maxRounds s w []).1.status = .waiting ∧
      (runInstructorLoop wd perms script maxRounds s w []).1.roundCount = maxRounds ∧
      SinkMsg.system_message
          "Maximum rounds reached. Please provide new instructions." "warning"
        ∈ (runInstructorLoop wd perms script maxRounds s w []).2.2 := by
  intro wd perms script maxR s w hscript h0
  obtain ⟨h1, h2, h3⟩ :=
    runLoopGo_always_tools wd perms script maxR hscript (maxR - s.roundCount) s w []
  unfold runInstructorLoop
  refine ⟨h1, ?_, h3⟩
  rw [h2, h0]
  omega

/-- A scripted Agent Client that always asks for one `glob` tool call. -/
def scriptGlob : Nat → ClaudeResponse :=
  fun _ => { content := [ContentBlock.tool_use "t1" "glob" {}]
             stop_reason := some "tool_use" }

/-- C9 witness: with `maxRounds = 3` and the always-tool-use script, the run
ends after 3 rounds with a waiting status and the warning message. -/
theorem runLoop_max_rounds_termination_witness :
    (runInstructorLoop wdDefault defaultPermissionEntries scriptGlob 3
        initialSession trivialWorld []).1.status = .waiting ∧
    (runInstructorLoop wdDefault defaultPermissionEntries scriptGlob 3
        initialSession trivialWorld []).1.roundCount = 3 ∧
    SinkMsg.system_message
        "Maximum rounds reached. Please provide new instructions." "warning"
      ∈ (runInstructorLoop wdDefault defaultPermissionEntries scriptGlob 3
          initialSession trivialWorld []).2.2 :=
  runLoop_max_rounds_termination wdDefault defaultPermissionEntries scriptGlob 3
    initialSession trivialWorld (fun _ => rfl) rfl

/-! ## C5 — guaranteed lock release on every exit path -/

/-- C5: every `runWithCallback` invocation that acquires the session lock —
the session exists, no run marker is registered, the lock is free — ends
through the `finally` block on every loop outcome (normal return,
suspension, max-rounds, abort, or thrown error): the `finished` exit is
taken, the trace contains exactly one release of the id, and afterwards the
lock is free and the active-run marker is gone. -/
theorem runWithCallback_release_discipline :
    ∀ (st : OrchState) (id : String) (outcome : LoopOutcome),
      st.activeRuns.contains id = false →
      isLocked st.locks id = false →
      (runWithCallback st true id outcome).2.1 = RunExit.finished ∧
      (runWithCallback st true id outcome).2.2.2.count (LockOp.release id) = 1 ∧
      isLocked (runWithCallback st true id outcome).1.locks id = false ∧
      (runWithCallback st true id outcome).1.activeRuns.contains id = false := by
  intro st id outcome hrun hlock
  have hrun2 : ¬ (id ∈ st.activeRuns) := by simpa using hrun
  have hlock2 : ¬ (id ∈ st.locks) := by simpa [isLocked] using hlock
  have hacq : acquireLock st.locks id = (true, id :: st.locks) := by
    simp [acquireLock, hlock2]
  refine ⟨?_, ?_, ?_, ?_⟩ <;>
    simp [runWithCallback, hrun2, hacq, isLocked, releaseLock, List.count_cons]

/-- C5 witness: a free state, an existing session, an abort outcome. -/
theorem runWithCallback_release_discipline_witness :
    (runWithCallback { activeRuns := [], locks := [] } true "a1" .abortError).2.1
        = RunExit.finished ∧
    (runWithCallback { activeRuns := [], locks := [] } true "a1"
        .abortError).2.2.2.count (LockOp.release "a1") = 1 :=
  ⟨(runWithCallback_release_discipline { activeRuns := [], locks := [] } "a1"
      .abortError (by rfl) (by rfl)).1,
   (runWithCallback_release_discipline { activeRuns := [], locks := [] } "a1"
      .abortError (by rfl) (by rfl)).2.1⟩

end ClaudeWeb
